import Mathlib

/-!
Shallow embedding of the Hermes frontend's journal-aggregation and
pin-filtering logic, translated from
`frontend/app/Register.tsx` (functions `loadConversationData`,
`normalizeUrl`, `extractPhotoFromEntry`, `getFilteredPins`) and
`frontend/utils/helpers.ts` (`distanceMeters`).

Modelling conventions:
* JS strings are Lean `String`s; JS string helpers (`trim`, `toLowerCase`,
  `startsWith`, substring test) are re-implemented structurally over
  `List Char` so that the kernel can evaluate them (ASCII-faithful).
* JS object fields are an association list `List (String × String)`;
  an absent field is `Option.none`, and JS truthiness of a string value
  is "non-empty" (`""` is falsy in JS).
* `Array.prototype.sort(comparator)` is modelled by `jsSort`, a stable
  insertion sort in which an element `x` is placed before `y` exactly
  when `comparator x y ≤ 0`; per ES SortCompare, a `NaN` comparator
  result is treated as `+0` (a tie).  When the comparator is consistent
  this is the behaviour ECMAScript specifies; when it is inconsistent
  (as happens with unparsable dates, where `getTime()` is `NaN`) the
  ECMAScript result is implementation-defined and `jsSort` is one
  conforming stable model.
* `new Date(s).getTime()` is abstracted as a parameter
  `parse : String → Option Int` (milliseconds since epoch, `none` = NaN),
  since JS date parsing is host-dependent beyond ISO forms.
* Geographic numbers are real numbers (`ℝ`), the standard idealization of
  the JS floats used by `distanceMeters`.
-/

/-- JS `s.startsWith(pre)`, via the character list of `s`. -/
def jsStartsWith (s p : String) : Bool :=
  p.toList.isPrefixOf s.toList

/-- JS `s.toLowerCase()` (ASCII-faithful), via the character list of `s`. -/
def jsToLower (s : String) : String :=
  (s.toList.map Char.toLower).asString

/-- JS `s.trim()`: drop whitespace from both ends, via the character list. -/
def jsTrim (s : String) : String :=
  (((s.toList.dropWhile Char.isWhitespace).reverse.dropWhile Char.isWhitespace).reverse).asString

/-- Does the character list contain `pat` as a contiguous sublist? -/
def listHasSub (pat : List Char) : List Char → Bool
  | [] => decide (pat = [])
  | c :: cs => pat.isPrefixOf (c :: cs) || listHasSub pat cs

/-- JS `s.includes(pat)` / regex substring test. -/
def hasSubstr (s pat : String) : Bool :=
  listHasSub pat.toList s.toList

/-- One step of the stable-sort model: insert `x` into `l`, placing it
before the first element `y` such that `le x y` (that is, such that the JS
comparator applied to `(x, y)` is `≤ 0`, ties included — stability). -/
def jsInsert (le : α → α → Bool) (x : α) : List α → List α
  | [] => [x]
  | y :: ys => if le x y then x :: y :: ys else y :: jsInsert le x ys

/-- Stable sort model for `Array.prototype.sort(comparator)`:
`le a b` holds when the comparator applied to `(a, b)` returns `≤ 0`
(with NaN treated as `+0`, per ES SortCompare). -/
def jsSort (le : α → α → Bool) : List α → List α
  | [] => []
  | x :: xs => jsInsert le x (jsSort le xs)

/-- JS `a || b` for an optional string `a` with string default `b`
(`undefined`, `null` and `""` are falsy). -/
def jsOrS (a : Option String) (b : String) : String :=
  match a with
  | some s => if s ≠ "" then s else b
  | none => b

/-- JS `a || b` for optional strings (`undefined`, `null`, `""` falsy). -/
def jsOrO (a b : Option String) : Option String :=
  match a with
  | some s => if s ≠ "" then some s else b
  | none => b

/-- JS truthiness of an optional string value. -/
def truthyO (a : Option String) : Bool :=
  match a with
  | some s => s ≠ ""
  | none => false

/-- A raw journal-entry record: a JS object modelled as an ordered
association list from field name to string value (`Register.tsx` reads
entries permissively, scanning `Object.keys`). -/
structure JEntry where
  fields : List (String × String)
deriving DecidableEq, Repr

/-- JS property access `entry[k]`: value of the first binding of `k`. -/
def JEntry.get (e : JEntry) (k : String) : Option String :=
  (e.fields.find? (fun kv => kv.1 == k)).map (fun kv => kv.2)

/-- The `normalizeUrl` closure of `loadConversationData`
(`Register.tsx`).  `baseURL` models `apiClient.defaults.baseURL`
(`none` = not configured); the code falls back to `''` via `|| ''`. -/
def normalizeUrl (baseURL : Option String) (url : Option String) : Option String :=
  match url with
  | none => none
  | some u =>
    if u = "" then none
    else
      let trimmed := jsTrim u
      if trimmed = "" then none
      else if hasSubstr (jsToLower trimmed) "placeholder_image_url" then none
      else if jsStartsWith trimmed "http://" || jsStartsWith trimmed "https://" then some trimmed
      else
        let base := baseURL.getD ""
        if jsStartsWith trimmed "/" then some (base ++ trimmed)
        else some (base ++ "/" ++ trimmed)

/-- The per-entry conversation record built by `loadConversationData`
(the `conversations` array of a daily bundle). -/
structure Conversation where
  message : String
  response : String
  timestamp : String
  latitude : Option String
  longitude : Option String
  location_name : Option String
  photo_url : Option String
  session_id : String
deriving DecidableEq, Repr

/-- The entry-to-conversation transform inside `loadConversationData`. -/
def mkConversation (baseURL : Option String) (e : JEntry) : Conversation :=
  { message := jsOrS (e.get "summary") "Journal Entry"
    response := jsOrS (e.get "diary") (jsOrS (e.get "summary") "No summary available")
    timestamp := jsOrS (e.get "timestamp") ""
    latitude := e.get "latitude"
    longitude := e.get "longitude"
    location_name := e.get "location_name"
    photo_url := normalizeUrl baseURL (jsOrO (e.get "photoUrl") (jsOrO (e.get "photo_url") (e.get "photo")))
    session_id := jsOrS (e.get "session_id") "" }

/-- A location point of a daily bundle (entries with truthy coordinates). -/
structure LocationPoint where
  latitude : String
  longitude : String
  location_name : String
deriving DecidableEq, Repr

/-- The `locations` array of a daily bundle. -/
def mkLocations (entries : List JEntry) : List LocationPoint :=
  (entries.filter (fun e => truthyO (e.get "latitude") && truthyO (e.get "longitude"))).map
    (fun e =>
      { latitude := (e.get "latitude").getD ""
        longitude := (e.get "longitude").getD ""
        location_name := jsOrS (e.get "location_name") "Unknown Location" })

/-- The truthiness test `e.diary && String(e.diary).trim()` used by
`entryArray.find` when choosing a diary entry. -/
def diaryTruthy (e : JEntry) : Bool :=
  match e.get "diary" with
  | some d => d ≠ "" && jsTrim d ≠ ""
  | none => false

/-- The fallback piece `e.summary || e.response || ''` for one entry. -/
def fallbackPiece (e : JEntry) : String :=
  jsOrS (e.get "summary") (jsOrS (e.get "response") "")

/-- The `diarySummary` computation of `loadConversationData`: prefer the
diary field of the first entry whose diary is truthy and non-blank,
otherwise join the non-empty fallback pieces with a blank line (the
trailing `|| ''` of the source is the identity on the join's result). -/
def diarySummaryOf (entries : List JEntry) : String :=
  match entries.find? diaryTruthy with
  | some e => (e.get "diary").getD ""
  | none => String.intercalate "\n\n" ((entries.map fallbackPiece).filter (fun s => s ≠ ""))

/-- The `extractPhotoFromEntry` helper of `loadConversationData`: collect
the fields whose key matches `/photo/i` with a truthy value, prefer the
keys `photo_url`, `photoUrl`, `photo`, otherwise take the first
candidate, and normalize the picked value. -/
def extractPhotoFromEntry (baseURL : Option String) (e : JEntry) : Option String :=
  let candidates := e.fields.filter (fun kv => hasSubstr (jsToLower kv.1) "photo" && kv.2 ≠ "")
  match (candidates.find? (fun kv => kv.1 == "photo_url" || kv.1 == "photoUrl" || kv.1 == "photo")).orElse
      (fun _ => candidates.head?) with
  | some kv => normalizeUrl baseURL (some kv.2)
  | none => none

/-- Lookup `dailyEntriesMap[date].images`: the pre-bundled daily-entries
source, modelled as an association list from date to image list. -/
def lookupImages (dailyEntriesMap : List (String × List String)) (date : String) :
    Option (List String) :=
  (dailyEntriesMap.find? (fun kv => kv.1 == date)).map (fun kv => kv.2)

/-- The per-day image collection of `loadConversationData`: prefer the
pre-bundled images for the date (normalized, nulls dropped) when that
yields a non-empty list, otherwise scan the day's entries. -/
def imagesForDate (baseURL : Option String) (dailyEntriesMap : List (String × List String))
    (date : String) (entries : List JEntry) : List String :=
  let fromBundle :=
    match lookupImages dailyEntriesMap date with
    | some l =>
      if l.length > 0 then l.filterMap (fun u => normalizeUrl baseURL (some u)) else []
    | none => []
  if fromBundle.length = 0 then entries.filterMap (extractPhotoFromEntry baseURL)
  else fromBundle

/-- The `DailyConversation` record produced for one date key. -/
structure DailyConversation where
  date : String
  conversations : List Conversation
  totalMessages : Nat
  locations : List LocationPoint
  diarySummary : String
  images : List String
deriving DecidableEq, Repr

/-- The body of the `Object.entries(journalData).map` callback of
`loadConversationData`, building one daily bundle from a date key and
its entry list. -/
def mkBundle (baseURL : Option String) (dailyEntriesMap : List (String × List String))
    (p : String × List JEntry) : DailyConversation :=
  { date := p.1
    conversations := p.2.map (mkConversation baseURL)
    totalMessages := p.2.length
    locations := mkLocations p.2
    diarySummary := diarySummaryOf p.2
    images := imagesForDate baseURL dailyEntriesMap p.1 p.2 }

/-- The date comparator
`(a, b) => new Date(b.date).getTime() - new Date(a.date).getTime()`
as a "place `a` before `b`" test: the comparator result is `≤ 0`, with a
NaN result (either date unparsable) treated as `+0` per ES SortCompare. -/
def dateLe (parse : String → Option Int) (a b : DailyConversation) : Bool :=
  match parse a.date, parse b.date with
  | some ta, some tb => decide (tb - ta ≤ 0)
  | _, _ => true

/-- The full aggregation of `loadConversationData`: map each
`(date, entries)` pair of `journalData` to a daily bundle, then sort by
date descending with the JS comparator. -/
def dailyConversationsData (baseURL : Option String)
    (dailyEntriesMap : List (String × List String)) (parse : String → Option Int)
    (journalData : List (String × List JEntry)) : List DailyConversation :=
  jsSort (dateLe parse) (journalData.map (mkBundle baseURL dailyEntriesMap))

/-- A map pin (`interface Pin` of `Register.tsx`; the fields the filter
logic reads). -/
structure Pin where
  id : String
  category : String
  latitude : ℝ
  longitude : ℝ
  createdAt : Option String

/-- The user's location (`LocationObjectCoords`). -/
structure Coords where
  latitude : ℝ
  longitude : ℝ

/-- The `sortOption` state: `'none' | 'distance' | 'time'`. -/
inductive SortOption where
  | noSort
  | distance
  | time
deriving DecidableEq, Repr

/-- JS `Math.atan2 y x` for real arguments (reals have no signed zero,
so the `±0` sub-cases collapse into the `x = 0` and origin cases). -/
noncomputable def atan2 (y x : ℝ) : ℝ :=
  if 0 < x then Real.arctan (y / x)
  else if x < 0 ∧ 0 ≤ y then Real.arctan (y / x) + Real.pi
  else if x < 0 ∧ y < 0 then Real.arctan (y / x) - Real.pi
  else if x = 0 ∧ 0 < y then Real.pi / 2
  else if x = 0 ∧ y < 0 then -(Real.pi / 2)
  else 0

/-- The helper `distanceMeters` of `frontend/utils/helpers.ts`: haversine great-circle
distance in meters on a sphere of radius 6371e3 m, degree inputs. -/
noncomputable def distanceMeters (lat1 lon1 lat2 lon2 : ℝ) : ℝ :=
  let R : ℝ := 6371e3
  let phi1 := lat1 * Real.pi / 180
  let phi2 := lat2 * Real.pi / 180
  let dphi := (lat2 - lat1) * Real.pi / 180
  let dlam := (lon2 - lon1) * Real.pi / 180
  let a := Real.sin (dphi / 2) * Real.sin (dphi / 2) +
    Real.cos phi1 * Real.cos phi2 * Real.sin (dlam / 2) * Real.sin (dlam / 2)
  let c := 2 * atan2 (Real.sqrt a) (Real.sqrt (1 - a))
  R * c

/-- The meters-to-miles conversion of `getFilteredPins`
(`const miles = meters * 0.000621371`). -/
noncomputable def metersToMiles (meters : ℝ) : ℝ :=
  meters * 0.000621371

/-- The value `new Date(pin.createdAt || 0).getTime()` as an optional integer
(`none` = NaN from an unparsable timestamp; a falsy `createdAt` gives
epoch 0). -/
def timeKey (parse : String → Option Int) (p : Pin) : Option Int :=
  match p.createdAt with
  | some s => if s ≠ "" then parse s else some 0
  | none => some 0

/-- The recency comparator `(a, b) => timeB - timeA` of `getFilteredPins`
as a "place `a` before `b`" test (comparator `≤ 0`, NaN as `+0`). -/
def timeLe (parse : String → Option Int) (a b : Pin) : Bool :=
  match timeKey parse a, timeKey parse b with
  | some ta, some tb => decide (tb - ta ≤ 0)
  | _, _ => true

/-- The category-filter stage of `getFilteredPins`: when some categories
are selected, keep the pins whose category is contained in the
selection; otherwise keep everything. -/
def categoryFiltered (selectedCategories : List String) (pins : List Pin) : List Pin :=
  if selectedCategories.length > 0 then
    pins.filter (fun pin => selectedCategories.contains pin.category)
  else pins

/-- The function `getFilteredPins` of `Register.tsx`: category filter, then — only
when the user's location is available — the max-distance filter in miles
and the distance sort; the recency sort also applies without a location.
`parse` abstracts `new Date(...).getTime()` for `createdAt` strings. -/
noncomputable def getFilteredPins (droppedPins : List Pin) (selectedCategories : List String)
    (location : Option Coords) (maxDistance : ℝ) (sortOption : SortOption)
    (parse : String → Option Int) : List Pin :=
  let filtered := categoryFiltered selectedCategories droppedPins
  match location with
  | some loc =>
    let inRange := filtered.filter (fun pin =>
      decide (metersToMiles
        (distanceMeters loc.latitude loc.longitude pin.latitude pin.longitude) ≤ maxDistance))
    match sortOption with
    | SortOption.distance =>
      jsSort (fun a b =>
        decide (distanceMeters loc.latitude loc.longitude a.latitude a.longitude -
          distanceMeters loc.latitude loc.longitude b.latitude b.longitude ≤ 0)) inRange
    | SortOption.time => jsSort (timeLe parse) inRange
    | SortOption.noSort => inRange
  | none =>
    match sortOption with
    | SortOption.time => jsSort (timeLe parse) filtered
    | _ => filtered

/-- A concrete `new Date(...).getTime()` environment: the ISO day strings
used in the examples parse (to day indices, which is all the comparator
needs), anything else is NaN — exactly what a JS engine does with the
string `"garbage"`. -/
def parse0 : String → Option Int := fun s =>
  if s == "2024-01-01" then some 0
  else if s == "2024-01-02" then some 1
  else if s == "2024-05-01" then some 121
  else if s == "2024-05-02" then some 122
  else none

/-- A date environment in which nothing parses (no `createdAt` is read). -/
def parseN : String → Option Int := fun _ => none

/-- Example entry with an explicit diary field (spec §8 example 4). -/
def entDiaryA : JEntry := ⟨[("diary", "A")]⟩

/-- Example entry with only a summary field (spec §8 example 4). -/
def entSummaryB : JEntry := ⟨[("summary", "B")]⟩

/-- Example entry with only a summary field (spec §8 example 5). -/
def entTower : JEntry := ⟨[("summary", "Saw the tower")]⟩

/-- Example entry with only a response field (spec §8 example 5). -/
def entGreat : JEntry := ⟨[("response", "It was great")]⟩

/-- Entry whose first photo-like key (`photo_zzz`) is not a preferred key
while a later preferred key (`photo_url`) is present. -/
def entPhotoPair : JEntry := ⟨[("photo_zzz", "http://a/1.jpg"), ("photo_url", "http://a/2.jpg")]⟩

/-- Entry carrying the same photo URL as `entPhotoPair`'s preferred key. -/
def entPhotoOne : JEntry := ⟨[("photo", "http://a/2.jpg")]⟩

/-- Concrete journal input for the partition witness. -/
def inputC1 : List (String × List JEntry) :=
  [("2024-05-01", [entSummaryB]), ("2024-05-02", [])]

/-- Concrete journal input with all dates parsable, given oldest-first. -/
def inputC5w : List (String × List JEntry) :=
  [("2024-01-01", []), ("2024-01-02", [])]

/-- Concrete journal input with an unparsable date between two parsable
ones (oldest first). -/
def inputC5c : List (String × List JEntry) :=
  [("2024-01-01", []), ("garbage", []), ("2024-01-02", [])]

/-- Concrete journal input whose first date key is unparsable. -/
def inputC6c : List (String × List JEntry) :=
  [("garbage", []), ("2024-01-01", [])]

/-- The user at latitude 0, longitude 0 (spec §8 example 8). -/
noncomputable def loc00 : Coords := ⟨0, 0⟩

/-- A pin at latitude 0, longitude 0.1 degrees (spec §8 example 8). -/
noncomputable def pin01 : Pin := ⟨"pin-1", "food", 0, 0.1, none⟩

/- ------------------------------------------------------------------ -/
/- Lemmas about the stable sort model.                                 -/
/- ------------------------------------------------------------------ -/

theorem jsInsert_perm (le : α → α → Bool) (x : α) (l : List α) :
    (jsInsert le x l).Perm (x :: l) := by
  induction l with
  | nil => exact List.Perm.refl _
  | cons y ys ih =>
    by_cases h : le x y
    · simp [jsInsert, h]
    · simp only [jsInsert, if_neg h]
      exact (ih.cons y).trans (List.Perm.swap x y ys)

theorem jsSort_perm (le : α → α → Bool) (l : List α) : (jsSort le l).Perm l := by
  induction l with
  | nil => exact List.Perm.refl _
  | cons x xs ih => exact (jsInsert_perm le x (jsSort le xs)).trans (ih.cons x)

theorem mem_jsInsert {le : α → α → Bool} {x a : α} {l : List α} :
    a ∈ jsInsert le x l ↔ a = x ∨ a ∈ l := by
  rw [(jsInsert_perm le x l).mem_iff, List.mem_cons]

theorem mem_jsSort {le : α → α → Bool} {a : α} {l : List α} :
    a ∈ jsSort le l ↔ a ∈ l :=
  (jsSort_perm le l).mem_iff

theorem jsInsert_congr {le le' : α → α → Bool} (x : α) {l : List α}
    (h : ∀ y ∈ l, le x y = le' x y) : jsInsert le x l = jsInsert le' x l := by
  induction l with
  | nil => rfl
  | cons y ys ih =>
    have hy := h y (List.mem_cons_self y ys)
    by_cases hxy : le x y
    · simp [jsInsert, hxy, hy ▸ hxy]
    · have hxy' : ¬ (le' x y = true) := by rw [← hy]; exact hxy
      simp only [jsInsert, if_neg hxy, if_neg hxy']
      rw [ih (fun z hz => h z (List.mem_cons_of_mem y hz))]

theorem jsSort_congr {le le' : α → α → Bool} {l : List α}
    (h : ∀ a ∈ l, ∀ b ∈ l, le a b = le' a b) : jsSort le l = jsSort le' l := by
  induction l with
  | nil => rfl
  | cons x xs ih =>
    show jsInsert le x (jsSort le xs) = jsInsert le' x (jsSort le' xs)
    rw [ih (fun a ha b hb =>
      h a (List.mem_cons_of_mem x ha) b (List.mem_cons_of_mem x hb))]
    exact jsInsert_congr x (fun y hy =>
      h x (List.mem_cons_self x xs) y (List.mem_cons_of_mem x (mem_jsSort.mp hy)))

theorem jsInsert_pairwise_key (k : α → Int) (x : α) {l : List α}
    (h : l.Pairwise (fun a b => k b ≤ k a)) :
    (jsInsert (fun a b => decide (k b ≤ k a)) x l).Pairwise (fun a b => k b ≤ k a) := by
  induction l with
  | nil => simp [jsInsert]
  | cons y ys ih =>
    rcases List.pairwise_cons.mp h with ⟨hy, hys⟩
    by_cases hle : k y ≤ k x
    · simp only [jsInsert, decide_eq_true_eq, if_pos hle]
      exact List.pairwise_cons.mpr
        ⟨fun z hz => by
          rcases List.mem_cons.mp hz with rfl | hz'
          · exact hle
          · exact le_trans (hy z hz') hle, h⟩
    · simp only [jsInsert, decide_eq_true_eq, if_neg hle]
      exact List.pairwise_cons.mpr
        ⟨fun z hz => by
          rcases mem_jsInsert.mp hz with rfl | hz'
          · exact le_of_lt (lt_of_not_le hle)
          · exact hy z hz', ih hys⟩

theorem jsSort_pairwise_key (k : α → Int) (l : List α) :
    (jsSort (fun a b => decide (k b ≤ k a)) l).Pairwise (fun a b => k b ≤ k a) := by
  induction l with
  | nil => simp [jsSort]
  | cons x xs ih => exact jsInsert_pairwise_key k x ih

theorem jsInsert_front {le : α → α → Bool} {x : α} (l : List α)
    (h : ∀ y ∈ l, le x y = true) : jsInsert le x l = x :: l := by
  cases l with
  | nil => rfl
  | cons y ys => simp [jsInsert, h y (List.mem_cons_self y ys)]

theorem jsInsert_append_tie {le : α → α → Bool} {w x : α} (p s : List α)
    (h : le w x = true) : jsInsert le w (p ++ x :: s) = jsInsert le w p ++ x :: s := by
  induction p with
  | nil => simp [jsInsert, h]
  | cons q qs ih =>
    by_cases hq : le w q
    · simp [jsInsert, hq]
    · simp only [List.cons_append, jsInsert, if_neg hq]
      show q :: jsInsert le w (qs ++ x :: s) = q :: (jsInsert le w qs ++ x :: s)
      rw [ih]

theorem jsSort_append_tie {le : α → α → Bool} {x : α} (l₁ l₂ : List α)
    (h1 : ∀ y, le x y = true) (h2 : ∀ w, le w x = true) :
    jsSort le (l₁ ++ x :: l₂) = jsSort le l₁ ++ x :: jsSort le l₂ := by
  induction l₁ with
  | nil =>
    show jsInsert le x (jsSort le l₂) = x :: jsSort le l₂
    exact jsInsert_front _ (fun y _ => h1 y)
  | cons w ws ih =>
    show jsInsert le w (jsSort le (ws ++ x :: l₂)) = jsInsert le w (jsSort le ws) ++ x :: jsSort le l₂
    rw [ih, jsInsert_append_tie _ _ (h2 w)]

/- ------------------------------------------------------------------ -/
/- Helper lemmas about URL normalization.                              -/
/- ------------------------------------------------------------------ -/

theorem jsTrim_empty : jsTrim "" = "" := by decide

theorem normalizeUrl_absolute (baseURL : Option String) (u : String)
    (habs : jsStartsWith (jsTrim u) "http://" = true ∨ jsStartsWith (jsTrim u) "https://" = true)
    (hph : hasSubstr (jsToLower (jsTrim u)) "placeholder_image_url" = false) :
    normalizeUrl baseURL (some u) = some (jsTrim u) := by
  have htrim : jsTrim u ≠ "" := by
    intro h0
    rw [h0] at habs
    rcases habs with h | h <;> exact absurd h (by decide)
  have hu : u ≠ "" := by
    intro h0
    rw [h0, jsTrim_empty] at htrim
    exact htrim rfl
  have hor : (jsStartsWith (jsTrim u) "http://" || jsStartsWith (jsTrim u) "https://") = true := by
    rcases habs with h | h <;> simp [h]
  simp only [normalizeUrl, if_neg hu, if_neg htrim, hph, hor, Bool.false_eq_true,
    if_false, if_true]

theorem normalizeUrl_relative (baseURL : Option String) (u : String)
    (htrim : jsTrim u ≠ "")
    (hph : hasSubstr (jsToLower (jsTrim u)) "placeholder_image_url" = false)
    (h3 : jsStartsWith (jsTrim u) "http://" = false)
    (h4 : jsStartsWith (jsTrim u) "https://" = false) :
    normalizeUrl baseURL (some u) =
      some (if jsStartsWith (jsTrim u) "/" = true then baseURL.getD "" ++ jsTrim u
            else baseURL.getD "" ++ "/" ++ jsTrim u) := by
  have hu : u ≠ "" := by
    intro h0
    rw [h0, jsTrim_empty] at htrim
    exact htrim rfl
  have hor : (jsStartsWith (jsTrim u) "http://" || jsStartsWith (jsTrim u) "https://") = false := by
    simp [h3, h4]
  by_cases hs : jsStartsWith (jsTrim u) "/" = true
  · simp only [normalizeUrl, if_neg hu, if_neg htrim, hph, hor, Bool.false_eq_true,
      if_false, hs, if_true]
  · simp only [normalizeUrl, if_neg hu, if_neg htrim, hph, hor, Bool.false_eq_true,
      if_false, if_neg hs]

/- ------------------------------------------------------------------ -/
/- Claim C1: daily aggregation is a partition.                         -/
/- ------------------------------------------------------------------ -/

/-- Claim C1: for every input mapping from date string to entry list
(distinct date keys), the aggregation produces exactly one bundle per
date key (the output dates are a permutation of the input keys and are
duplicate-free), and the concatenation of all bundles' conversations is
a permutation of the per-entry conversation records of the input — every
entry lands in exactly one bundle, none dropped, none duplicated. -/
theorem claim_C1_partition (baseURL : Option String) (m : List (String × List String))
    (parse : String → Option Int) (journalData : List (String × List JEntry))
    (hnd : (journalData.map Prod.fst).Nodup) :
    ((dailyConversationsData baseURL m parse journalData).map (fun c => c.date)).Perm
        (journalData.map Prod.fst)
    ∧ ((dailyConversationsData baseURL m parse journalData).map (fun c => c.date)).Nodup
    ∧ ((dailyConversationsData baseURL m parse journalData).map
          (fun c => c.conversations)).flatten.Perm
        ((journalData.map (fun p => p.2.map (mkConversation baseURL))).flatten) := by
  have hperm := jsSort_perm (dateLe parse) (journalData.map (mkBundle baseURL m))
  have hdates : ((journalData.map (mkBundle baseURL m)).map (fun c => c.date))
      = journalData.map Prod.fst := by
    rw [List.map_map]; rfl
  have hconvs : ((journalData.map (mkBundle baseURL m)).map (fun c => c.conversations))
      = journalData.map (fun p => p.2.map (mkConversation baseURL)) := by
    rw [List.map_map]; rfl
  have h1 : ((dailyConversationsData baseURL m parse journalData).map (fun c => c.date)).Perm
      (journalData.map Prod.fst) := by
    have h := hperm.map (fun c => c.date)
    rwa [hdates] at h
  refine ⟨h1, h1.nodup_iff.mpr hnd, ?_⟩
  have h2 := (hperm.map (fun c => c.conversations)).flatten
  rwa [hconvs] at h2

/-- Witness for C1 at a concrete two-day input. -/
theorem claim_C1_witness :
    ((dailyConversationsData (some "http://b") [] parse0 inputC1).map (fun c => c.date)).Perm
        (inputC1.map Prod.fst)
    ∧ ((dailyConversationsData (some "http://b") [] parse0 inputC1).map (fun c => c.date)).Nodup
    ∧ ((dailyConversationsData (some "http://b") [] parse0 inputC1).map
          (fun c => c.conversations)).flatten.Perm
        ((inputC1.map (fun p => p.2.map (mkConversation (some "http://b")))).flatten) :=
  claim_C1_partition (some "http://b") [] parse0 inputC1 (by decide)

/- ------------------------------------------------------------------ -/
/- Claims C5 and C6: output order.                                     -/
/- ------------------------------------------------------------------ -/

theorem mkBundle_date (baseURL : Option String) (m : List (String × List String))
    (p : String × List JEntry) : (mkBundle baseURL m p).date = p.1 := rfl

theorem mkBundle_conversations (baseURL : Option String) (m : List (String × List String))
    (p : String × List JEntry) :
    (mkBundle baseURL m p).conversations = p.2.map (mkConversation baseURL) := rfl

/-- Claim C5 (amended): for every input all of whose date keys parse as
dates, the output bundles are sorted descending by parsed date, and each
bundle's conversations are the original entries of its date key,
transformed in their original relative order (there is no sort option in
the aggregation). -/
theorem claim_C5_sorted (baseURL : Option String) (m : List (String × List String))
    (parse : String → Option Int) (journalData : List (String × List JEntry))
    (hall : ∀ p ∈ journalData, (parse p.1).isSome = true) :
    (dailyConversationsData baseURL m parse journalData).Pairwise
        (fun a b => ∀ (ta tb : Int), parse a.date = some ta → parse b.date = some tb → tb ≤ ta)
    ∧ ∀ p ∈ journalData, ∃ b ∈ dailyConversationsData baseURL m parse journalData,
        b.date = p.1 ∧ b.conversations = p.2.map (mkConversation baseURL) := by
  constructor
  · have hcongr : jsSort (dateLe parse) (journalData.map (mkBundle baseURL m)) =
        jsSort (fun a b =>
          decide ((fun c : DailyConversation => (parse c.date).getD 0) b
            ≤ (fun c : DailyConversation => (parse c.date).getD 0) a))
          (journalData.map (mkBundle baseURL m)) := by
      apply jsSort_congr
      intro a ha b hb
      obtain ⟨pa, hpa, rfl⟩ := List.mem_map.mp ha
      obtain ⟨pb, hpb, rfl⟩ := List.mem_map.mp hb
      obtain ⟨ta, hta⟩ := Option.isSome_iff_exists.mp (hall pa hpa)
      obtain ⟨tb, htb⟩ := Option.isSome_iff_exists.mp (hall pb hpb)
      simp only [dateLe, mkBundle_date, hta, htb, Option.getD_some]
      rw [decide_eq_decide]
      omega
    show (jsSort (dateLe parse) (journalData.map (mkBundle baseURL m))).Pairwise _
    rw [hcongr]
    refine List.Pairwise.imp ?_
      (jsSort_pairwise_key (fun c : DailyConversation => (parse c.date).getD 0)
        (journalData.map (mkBundle baseURL m)))
    intro a b hk ta tb hta htb
    simp only [hta, htb, Option.getD_some] at hk
    exact hk
  · intro p hp
    exact ⟨mkBundle baseURL m p, mem_jsSort.mpr (List.mem_map_of_mem _ hp), rfl, rfl⟩

/-- Witness for C5 at a concrete fully-parsable input. -/
theorem claim_C5_witness :
    (dailyConversationsData Option.none [] parse0 inputC5w).Pairwise
        (fun a b => ∀ (ta tb : Int), parse0 a.date = some ta → parse0 b.date = some tb → tb ≤ ta)
    ∧ ∀ p ∈ inputC5w, ∃ b ∈ dailyConversationsData Option.none [] parse0 inputC5w,
        b.date = p.1 ∧ b.conversations = p.2.map (mkConversation Option.none) :=
  claim_C5_sorted Option.none [] parse0 inputC5w (by decide)

/-- Counterexample to C5 as stated: with an unparsable date key between
two parsable ones, the comparator is inconsistent (NaN ties with
everything) and the stable sort leaves the two parsable dates in
ascending order — the output is not sorted descending by calendar
date. -/
theorem claim_C5_counterexample :
    ¬ (dailyConversationsData Option.none [] parse0 inputC5c).Pairwise
        (fun a b => ∀ (ta tb : Int), parse0 a.date = some ta → parse0 b.date = some tb →
          tb ≤ ta) := by
  intro h
  have hm : ((dailyConversationsData Option.none [] parse0 inputC5c).map
      (fun c : DailyConversation => c.date)).Pairwise
        (fun x y => ∀ (ta tb : Int), parse0 x = some ta → parse0 y = some tb → tb ≤ ta) :=
    List.Pairwise.map (fun c : DailyConversation => c.date) (fun a b hab => hab) h
  have hdates : (dailyConversationsData Option.none [] parse0 inputC5c).map (fun c => c.date)
      = ["2024-01-01", "garbage", "2024-01-02"] := by decide
  rw [hdates] at hm
  rcases List.pairwise_cons.mp hm with ⟨h1, -⟩
  have h2 := h1 "2024-01-02" (by simp) 0 1 (by decide) (by decide)
  omega

/-- Claim C6 (amended): an entry list under an unparsable date key does
not crash aggregation — its bundle is still produced under the raw date
string, and because the comparator returns NaN (treated as a tie with
every other bundle) the stable sort leaves that bundle exactly in its
original relative position, rather than in a special bucket sorted last;
the output dates are still a permutation of the input keys. -/
theorem claim_C6_unparsable (baseURL : Option String) (m : List (String × List String))
    (parse : String → Option Int) (pre post : List (String × List JEntry))
    (d : String) (es : List JEntry) (hd : parse d = none) :
    dailyConversationsData baseURL m parse (pre ++ (d, es) :: post)
      = dailyConversationsData baseURL m parse pre
          ++ mkBundle baseURL m (d, es) :: dailyConversationsData baseURL m parse post
    ∧ ((dailyConversationsData baseURL m parse (pre ++ (d, es) :: post)).map
          (fun c => c.date)).Perm ((pre ++ (d, es) :: post).map Prod.fst) := by
  constructor
  · show jsSort (dateLe parse) ((pre ++ (d, es) :: post).map (mkBundle baseURL m)) = _
    rw [List.map_append, List.map_cons]
    refine jsSort_append_tie _ _ ?_ ?_
    · intro y
      simp only [dateLe, mkBundle_date, hd]
    · intro w
      simp only [dateLe, mkBundle_date, hd]
      cases parse w.date <;> rfl
  · have hperm := jsSort_perm (dateLe parse) ((pre ++ (d, es) :: post).map (mkBundle baseURL m))
    have hdates : (((pre ++ (d, es) :: post).map (mkBundle baseURL m)).map (fun c => c.date))
        = (pre ++ (d, es) :: post).map Prod.fst := by
      rw [List.map_map]; rfl
    have h := hperm.map (fun c => c.date)
    rwa [hdates] at h

/-- Witness for C6 at a concrete input with `"garbage"` in the middle. -/
theorem claim_C6_witness :
    dailyConversationsData Option.none [] parse0
        ([("2024-01-01", [])] ++ ("garbage", ([] : List JEntry)) :: [("2024-01-02", [])])
      = dailyConversationsData Option.none [] parse0 [("2024-01-01", [])]
          ++ mkBundle Option.none [] ("garbage", [])
            :: dailyConversationsData Option.none [] parse0 [("2024-01-02", [])]
    ∧ ((dailyConversationsData Option.none [] parse0
          ([("2024-01-01", [])] ++ ("garbage", ([] : List JEntry)) :: [("2024-01-02", [])])).map
            (fun c => c.date)).Perm
        (([("2024-01-01", [])] ++ ("garbage", ([] : List JEntry)) :: [("2024-01-02", [])]).map
          Prod.fst) :=
  claim_C6_unparsable Option.none [] parse0 [("2024-01-01", [])] [("2024-01-02", [])]
    "garbage" [] (by decide)

/-- Counterexample to C6 as stated: a bundle with an unparsable date key
placed first in the input stays first in the output — it does not sort
last (and no warning of any kind is attached to it). -/
theorem claim_C6_counterexample :
    (dailyConversationsData Option.none [] parse0 inputC6c).map (fun c => c.date)
        = ["garbage", "2024-01-01"]
    ∧ parse0 "garbage" = none
    ∧ parse0 "2024-01-01" = some 0 := by decide

/- ------------------------------------------------------------------ -/
/- Claim C2: diary-summary resolution.                                 -/
/- ------------------------------------------------------------------ -/

theorem find?_append_of_forall_neg {α : Type} {p : α → Bool} {l₁ : List α} (l₂ : List α)
    (h : ∀ x ∈ l₁, p x = false) : (l₁ ++ l₂).find? p = l₂.find? p := by
  induction l₁ with
  | nil => rfl
  | cons a as ih =>
    have hpa : ¬ p a = true := by simp [h a (List.mem_cons_self a as)]
    rw [List.cons_append, List.find?_cons_of_neg _ hpa,
      ih (fun x hx => h x (List.mem_cons_of_mem a hx))]

theorem diaryTruthy_eq_false {e : JEntry}
    (h : ∀ d, e.get "diary" = some d → jsTrim d = "") : diaryTruthy e = false := by
  unfold diaryTruthy
  cases hg : e.get "diary" with
  | none => rfl
  | some d => simp [h d hg]

theorem diaryTruthy_eq_true {e : JEntry} {d : String}
    (hg : e.get "diary" = some d) (hne : jsTrim d ≠ "") : diaryTruthy e = true := by
  have hd : d ≠ "" := by
    intro h0
    rw [h0, jsTrim_empty] at hne
    exact hne rfl
  simp [diaryTruthy, hg, hd, hne]

/-- Claim C2: for every date's entry list, if some entry has a non-blank
diary field, the bundle summary is the raw diary field of the first such
entry; otherwise it is the blank-line join of the non-empty per-entry
pieces, where a piece is the entry's summary if that is a non-empty
string, else its response if non-empty, else empty; and if no text
survives at all the summary is the empty string (it is a total `String`,
never null/undefined). -/
theorem claim_C2_diary_summary (entries : List JEntry) :
    (∀ (l₁ : List JEntry) (e : JEntry) (l₂ : List JEntry) (d : String),
        entries = l₁ ++ e :: l₂ →
        (∀ e' ∈ l₁, ∀ d', e'.get "diary" = some d' → jsTrim d' = "") →
        e.get "diary" = some d → jsTrim d ≠ "" →
        diarySummaryOf entries = d)
    ∧ ((∀ e ∈ entries, ∀ d, e.get "diary" = some d → jsTrim d = "") →
        diarySummaryOf entries = String.intercalate "\n\n"
          ((entries.map (fun e =>
              match e.get "summary" with
              | some s =>
                if s ≠ "" then s
                else
                  match e.get "response" with
                  | some r => if r ≠ "" then r else ""
                  | none => ""
              | none =>
                match e.get "response" with
                | some r => if r ≠ "" then r else ""
                | none => "")).filter (fun s => s ≠ "")))
    ∧ ((∀ e ∈ entries, ∀ d, e.get "diary" = some d → jsTrim d = "") →
        (∀ e ∈ entries, fallbackPiece e = "") →
        diarySummaryOf entries = "") := by
  refine ⟨?_, ?_, ?_⟩
  · intro l₁ e l₂ d hsplit hblank hg hne
    have hfind : entries.find? diaryTruthy = some e := by
      rw [hsplit, find?_append_of_forall_neg _
        (fun x hx => diaryTruthy_eq_false (hblank x hx))]
      exact List.find?_cons_of_pos _ (diaryTruthy_eq_true hg hne)
    simp only [diarySummaryOf, hfind, hg, Option.getD_some]
  · intro hall
    have hnone : entries.find? diaryTruthy = none :=
      List.find?_eq_none.mpr (fun e he => by
        rw [diaryTruthy_eq_false (hall e he)]
        exact Bool.false_ne_true)
    simp only [diarySummaryOf, hnone]
    rfl
  · intro hall hempty
    have hnone : entries.find? diaryTruthy = none :=
      List.find?_eq_none.mpr (fun e he => by
        rw [diaryTruthy_eq_false (hall e he)]
        exact Bool.false_ne_true)
    simp only [diarySummaryOf, hnone]
    have hfil : (entries.map fallbackPiece).filter (fun s => decide (s ≠ "")) = [] := by
      rw [List.filter_eq_nil_iff]
      intro a ha
      obtain ⟨e, he, rfl⟩ := List.mem_map.mp ha
      simp [hempty e he]
    rw [hfil]
    rfl

/-- Witness for C2 at the two examples of spec §8. -/
theorem claim_C2_witness :
    diarySummaryOf [entDiaryA, entSummaryB] = "A"
    ∧ diarySummaryOf [entTower, entGreat] = "Saw the tower\n\nIt was great" := by
  constructor
  · exact (claim_C2_diary_summary [entDiaryA, entSummaryB]).1 [] entDiaryA [entSummaryB] "A"
      rfl (by simp) (by decide) (by decide)
  · have hT : entTower.get "diary" = none := by decide
    have hG : entGreat.get "diary" = none := by decide
    have h := (claim_C2_diary_summary [entTower, entGreat]).2.1 (by
      intro e he d hd
      fin_cases he
      · rw [hT] at hd; exact Option.noConfusion hd
      · rw [hG] at hd; exact Option.noConfusion hd)
    rw [h]
    decide

/- ------------------------------------------------------------------ -/
/- Claim C3: URL normalization.                                        -/
/- ------------------------------------------------------------------ -/

/-- Claim C3 (amended): an absolute http(s) URL with no surrounding
whitespace whose lowercase form does not contain the placeholder
sentinel is returned unchanged (hence normalization is idempotent on
such URLs); empty, missing, whitespace-only or placeholder-containing
values yield no photo; any other value is trimmed and prefixed with the
base URL, with a separating slash inserted exactly when the trimmed path
does not itself start with a slash (the base's trailing slash is not
consulted); `"/uploads/x.jpg"` against `"https://api.example.com"`
yields `"https://api.example.com/uploads/x.jpg"`. -/
theorem claim_C3_normalize (baseURL : Option String) (u : String) :
    ((jsStartsWith u "http://" = true ∨ jsStartsWith u "https://" = true) →
        jsTrim u = u →
        hasSubstr (jsToLower u) "placeholder_image_url" = false →
        normalizeUrl baseURL (some u) = some u
          ∧ normalizeUrl baseURL (normalizeUrl baseURL (some u)) = normalizeUrl baseURL (some u))
    ∧ normalizeUrl baseURL none = none
    ∧ normalizeUrl baseURL (some "") = none
    ∧ (jsTrim u = "" → normalizeUrl baseURL (some u) = none)
    ∧ (hasSubstr (jsToLower (jsTrim u)) "placeholder_image_url" = true →
        normalizeUrl baseURL (some u) = none)
    ∧ (jsTrim u ≠ "" →
        hasSubstr (jsToLower (jsTrim u)) "placeholder_image_url" = false →
        jsStartsWith (jsTrim u) "http://" = false →
        jsStartsWith (jsTrim u) "https://" = false →
        normalizeUrl baseURL (some u) =
          some (if jsStartsWith (jsTrim u) "/" = true then baseURL.getD "" ++ jsTrim u
                else baseURL.getD "" ++ "/" ++ jsTrim u))
    ∧ normalizeUrl (some "https://api.example.com") (some "/uploads/x.jpg")
        = some "https://api.example.com/uploads/x.jpg" := by
  refine ⟨?_, rfl, by simp [normalizeUrl], ?_, ?_, ?_, by decide⟩
  · intro habs htr hph
    have h1 : normalizeUrl baseURL (some u) = some (jsTrim u) :=
      normalizeUrl_absolute baseURL u (by rw [htr]; exact habs) (by rw [htr]; exact hph)
    rw [htr] at h1
    refine ⟨h1, ?_⟩
    rw [h1, h1]
  · intro h0
    by_cases hu : u = ""
    · simp [normalizeUrl, hu]
    · simp [normalizeUrl, hu, h0]
  · intro hph
    by_cases hu : u = ""
    · simp [normalizeUrl, hu]
    · by_cases htr : jsTrim u = ""
      · simp [normalizeUrl, hu, htr]
      · simp [normalizeUrl, hu, htr, hph]
  · intro h1 h2 h3 h4
    exact normalizeUrl_relative baseURL u h1 h2 h3 h4

/-- Witness for C3 on a concrete clean absolute URL. -/
theorem claim_C3_witness :
    normalizeUrl (some "https://api.example.com") (some "http://example.com/a.jpg")
      = some "http://example.com/a.jpg" :=
  ((claim_C3_normalize (some "https://api.example.com") "http://example.com/a.jpg").1
    (Or.inl (by decide)) (by decide) (by decide)).1

/-- Counterexample to C3 as stated: an absolute `http://` URL containing
the placeholder sentinel is not returned unchanged — the sentinel check
runs before the absolute-URL passthrough and filters it out. -/
theorem claim_C3_counterexample :
    jsStartsWith "http://placeholder_image_url/pic.jpg" "http://" = true
    ∧ normalizeUrl (some "https://api.example.com")
        (some "http://placeholder_image_url/pic.jpg") = none := by decide

/- ------------------------------------------------------------------ -/
/- Claim C4: per-day photo collection.                                 -/
/- ------------------------------------------------------------------ -/

theorem extractPhotoFromEntry_eq (baseURL : Option String) (e : JEntry) :
    extractPhotoFromEntry baseURL e =
      match (e.fields.filter (fun kv => hasSubstr (jsToLower kv.1) "photo" && kv.2 ≠ "")).find?
          (fun kv => kv.1 == "photo_url" || kv.1 == "photoUrl" || kv.1 == "photo") with
      | some kv => normalizeUrl baseURL (some kv.2)
      | none =>
        match (e.fields.filter
            (fun kv => hasSubstr (jsToLower kv.1) "photo" && kv.2 ≠ "")).head? with
        | some kv => normalizeUrl baseURL (some kv.2)
        | none => none := by
  simp only [extractPhotoFromEntry]
  cases hf : (e.fields.filter (fun kv => hasSubstr (jsToLower kv.1) "photo" && kv.2 ≠ "")).find?
      (fun kv => kv.1 == "photo_url" || kv.1 == "photoUrl" || kv.1 == "photo") with
  | some kv => rfl
  | none =>
    cases hh : (e.fields.filter
        (fun kv => hasSubstr (jsToLower kv.1) "photo" && kv.2 ≠ "")).head? with
    | some kv => rfl
    | none => rfl

/-- Claim C4 (amended): a non-empty pre-bundled image list for the date
is used (normalized, nulls dropped) in preference to entry scanning;
otherwise every entry's keys are scanned case-insensitively for the
substring "photo" with a truthy value, and the picked value per entry is
the one under a preferred key (`photo_url`, `photoUrl`, `photo`) when
one matches, else the first photo-like key; the normalized non-empty
results are collected in entry order without de-duplication (bundles can
contain duplicate URLs). -/
theorem claim_C4_photos (baseURL : Option String) (m : List (String × List String))
    (date : String) (entries : List JEntry) :
    (∀ l, lookupImages m date = some l →
        l.filterMap (fun u => normalizeUrl baseURL (some u)) ≠ [] →
        imagesForDate baseURL m date entries
          = l.filterMap (fun u => normalizeUrl baseURL (some u)))
    ∧ (lookupImages m date = none →
        imagesForDate baseURL m date entries
          = entries.filterMap (fun e =>
              match (e.fields.filter
                  (fun kv => hasSubstr (jsToLower kv.1) "photo" && kv.2 ≠ "")).find?
                    (fun kv => kv.1 == "photo_url" || kv.1 == "photoUrl" || kv.1 == "photo") with
              | some kv => normalizeUrl baseURL (some kv.2)
              | none =>
                match (e.fields.filter
                    (fun kv => hasSubstr (jsToLower kv.1) "photo" && kv.2 ≠ "")).head? with
                | some kv => normalizeUrl baseURL (some kv.2)
                | none => none))
    ∧ (∀ l, lookupImages m date = some l →
        l.filterMap (fun u => normalizeUrl baseURL (some u)) = [] →
        imagesForDate baseURL m date entries
          = entries.filterMap (extractPhotoFromEntry baseURL)) := by
  have hfun : extractPhotoFromEntry baseURL = (fun e : JEntry =>
      match (e.fields.filter (fun kv => hasSubstr (jsToLower kv.1) "photo" && kv.2 ≠ "")).find?
          (fun kv => kv.1 == "photo_url" || kv.1 == "photoUrl" || kv.1 == "photo") with
      | some kv => normalizeUrl baseURL (some kv.2)
      | none =>
        match (e.fields.filter
            (fun kv => hasSubstr (jsToLower kv.1) "photo" && kv.2 ≠ "")).head? with
        | some kv => normalizeUrl baseURL (some kv.2)
        | none => none) := funext (extractPhotoFromEntry_eq baseURL)
  refine ⟨?_, ?_, ?_⟩
  · intro l hl hne
    have hlne : l ≠ [] := by
      intro h0
      rw [h0] at hne
      exact hne rfl
    have hlen : l.length > 0 := List.length_pos.mpr hlne
    have hmne : (l.filterMap (fun u => normalizeUrl baseURL (some u))).length ≠ 0 := by
      intro h0
      exact hne (List.length_eq_zero.mp h0)
    simp only [imagesForDate, hl, if_pos hlen, if_neg hmne]
  · intro hl
    simp only [imagesForDate, hl, List.length_nil, eq_self_iff_true, if_true]
    rw [hfun]
  · intro l hl hmap
    simp only [imagesForDate, hl]
    have hbundle : (if l.length > 0
        then l.filterMap (fun u => normalizeUrl baseURL (some u)) else []) = [] := by
      split
      · exact hmap
      · rfl
    rw [hbundle]
    simp only [List.length_nil, eq_self_iff_true, if_true]

/-- Witness for C4: the permissive scan on a concrete two-entry day. -/
theorem claim_C4_witness :
    imagesForDate (some "http://b") [] "2024-05-01" [entPhotoPair, entPhotoOne]
      = ["http://a/2.jpg", "http://a/2.jpg"] := by
  have h := (claim_C4_photos (some "http://b") [] "2024-05-01"
    [entPhotoPair, entPhotoOne]).2.1 (by decide)
  rw [h]
  decide

/-- Counterexample to C4 as stated: with two entries surfacing the same
URL the bundle's image list contains a duplicate, and the entry whose
first photo-like key is `photo_zzz` contributes its preferred
`photo_url` value instead of that first match. -/
theorem claim_C4_counterexample :
    (mkBundle (some "http://b") [] ("2024-05-01", [entPhotoPair, entPhotoOne])).images
        = ["http://a/2.jpg", "http://a/2.jpg"]
    ∧ ¬ ((mkBundle (some "http://b") [] ("2024-05-01", [entPhotoPair, entPhotoOne])).images).Nodup
    ∧ (entPhotoPair.fields.filter
        (fun kv => hasSubstr (jsToLower kv.1) "photo" && kv.2 ≠ "")).head?
        = some ("photo_zzz", "http://a/1.jpg")
    ∧ ¬ ("http://a/1.jpg" ∈
        (mkBundle (some "http://b") [] ("2024-05-01", [entPhotoPair, entPhotoOne])).images) := by
  decide

/- ------------------------------------------------------------------ -/
/- Claim C7: relative paths with no configured base URL.               -/
/- ------------------------------------------------------------------ -/

/-- Claim C7 (amended): when no API base URL is configured, a relative
photo path does not crash and is not filtered out — it is resolved
against the empty base, yielding the trimmed path itself when it starts
with a slash and `"/" ++ path` otherwise (a root-relative URL). -/
theorem claim_C7_no_base (u : String)
    (h1 : jsTrim u ≠ "")
    (h2 : hasSubstr (jsToLower (jsTrim u)) "placeholder_image_url" = false)
    (h3 : jsStartsWith (jsTrim u) "http://" = false)
    (h4 : jsStartsWith (jsTrim u) "https://" = false) :
    normalizeUrl Option.none (some u)
        = some (if jsStartsWith (jsTrim u) "/" = true then jsTrim u else "/" ++ jsTrim u)
    ∧ normalizeUrl Option.none (some u) ≠ none := by
  have h := normalizeUrl_relative Option.none u h1 h2 h3 h4
  have hbase : (Option.none : Option String).getD "" = "" := rfl
  rw [hbase] at h
  constructor
  · rw [h]
    have e1 : "" ++ jsTrim u = jsTrim u := rfl
    have e2 : "" ++ "/" ++ jsTrim u = "/" ++ jsTrim u := rfl
    rw [e1, e2]
  · rw [h]
    simp

/-- Witness for C7 at a concrete relative path. -/
theorem claim_C7_witness :
    normalizeUrl Option.none (some "uploads/pic.jpg") = some "/uploads/pic.jpg"
    ∧ normalizeUrl Option.none (some "uploads/pic.jpg") ≠ none := by
  have h := claim_C7_no_base "uploads/pic.jpg" (by decide) (by decide) (by decide) (by decide)
  obtain ⟨ha, hb⟩ := h
  refine ⟨?_, hb⟩
  rw [ha]
  decide

/-- Counterexample to C7 as stated: with no base URL configured, the
relative path `"uploads/x.jpg"` is not filtered out — normalization
returns the unresolvable root-relative value `"/uploads/x.jpg"`. -/
theorem claim_C7_counterexample :
    normalizeUrl Option.none (some "uploads/x.jpg") = some "/uploads/x.jpg"
    ∧ normalizeUrl Option.none (some "uploads/x.jpg") ≠ none := by decide

/- ------------------------------------------------------------------ -/
/- Claims C9 and C10: pin filtering.                                   -/
/- ------------------------------------------------------------------ -/

theorem contains_eq_decide_mem (l : List String) (a : String) :
    l.contains a = decide (a ∈ l) := by
  induction l with
  | nil => rfl
  | cons b bs ih => simp [List.contains_cons, ih]

/-- Claim C9: the category filter is a set-membership test — a pin of
the input passes exactly when its category is in the selected set or the
selected set is empty (stated as a filter identity, which also preserves
order and multiplicity); with an empty selected set the filter returns
all pins unchanged, and the whole pipeline with an empty selection, no
sort option and no location returns the pin list unchanged in its
original order. -/
theorem claim_C9_category_filter (pins : List Pin) (cats : List String) (maxD : ℝ)
    (parse : String → Option Int) :
    categoryFiltered cats pins
        = pins.filter (fun p => decide (p.category ∈ cats ∨ cats = []))
    ∧ categoryFiltered [] pins = pins
    ∧ getFilteredPins pins [] Option.none maxD SortOption.noSort parse = pins := by
  refine ⟨?_, rfl, rfl⟩
  cases cats with
  | nil => simp [categoryFiltered]
  | cons c cs =>
    simp only [categoryFiltered, List.length_cons]
    rw [if_pos (Nat.succ_pos _)]
    apply List.filter_congr
    intro p hp
    rw [contains_eq_decide_mem]
    rw [decide_eq_decide]
    simp

/-- Claim C10: with the user's location unavailable, `getFilteredPins`
applies no distance filtering and no distance sort — every
category-matching pin is returned in its original order, independent of
the maximum-distance setting — and only the recency sort is still
applied. -/
theorem claim_C10_no_location (pins : List Pin) (cats : List String) (maxD maxD' : ℝ)
    (parse : String → Option Int) :
    getFilteredPins pins cats Option.none maxD SortOption.distance parse
        = categoryFiltered cats pins
    ∧ getFilteredPins pins cats Option.none maxD SortOption.noSort parse
        = categoryFiltered cats pins
    ∧ getFilteredPins pins cats Option.none maxD SortOption.time parse
        = jsSort (timeLe parse) (categoryFiltered cats pins)
    ∧ ∀ opt, getFilteredPins pins cats Option.none maxD opt parse
        = getFilteredPins pins cats Option.none maxD' opt parse := by
  refine ⟨rfl, rfl, rfl, ?_⟩
  intro opt
  cases opt <;> rfl

/- ------------------------------------------------------------------ -/
/- Claim C8: the distance filter at (0,0) vs (0, 0.1).                 -/
/- ------------------------------------------------------------------ -/

theorem distanceMeters_equator_tenth :
    distanceMeters 0 0 0 (0.1 : ℝ) = 6371000 * (Real.pi / 1800) := by
  have hpi := Real.pi_pos
  have h0 : (0:ℝ) ≤ Real.pi / 3600 := by linarith
  have hle : Real.pi / 3600 ≤ Real.pi := by linarith
  have hlt : Real.pi / 3600 < Real.pi / 2 := by linarith
  have hgt : -(Real.pi / 2) < Real.pi / 3600 := by linarith
  have hcos : 0 < Real.cos (Real.pi / 3600) := Real.cos_pos_of_mem_Ioo ⟨hgt, hlt⟩
  have hsin : 0 ≤ Real.sin (Real.pi / 3600) := Real.sin_nonneg_of_nonneg_of_le_pi h0 hle
  simp only [distanceMeters]
  have e1 : ((0:ℝ) - 0) * Real.pi / 180 / 2 = 0 := by ring
  have e2 : ((0.1:ℝ) - 0) * Real.pi / 180 / 2 = Real.pi / 3600 := by ring_nf
  have e3 : (0:ℝ) * Real.pi / 180 = 0 := by ring
  rw [e1, e2, e3, Real.sin_zero, Real.cos_zero]
  have ea : (0:ℝ) * 0 + 1 * 1 * Real.sin (Real.pi / 3600) * Real.sin (Real.pi / 3600)
      = Real.sin (Real.pi / 3600) * Real.sin (Real.pi / 3600) := by ring
  rw [ea, Real.sqrt_mul_self hsin]
  have e4 : 1 - Real.sin (Real.pi / 3600) * Real.sin (Real.pi / 3600)
      = Real.cos (Real.pi / 3600) * Real.cos (Real.pi / 3600) := by
    have h := Real.sin_sq_add_cos_sq (Real.pi / 3600)
    nlinarith [h]
  rw [e4, Real.sqrt_mul_self (le_of_lt hcos)]
  have e5 : atan2 (Real.sin (Real.pi / 3600)) (Real.cos (Real.pi / 3600)) = Real.pi / 3600 := by
    unfold atan2
    rw [if_pos hcos, ← Real.tan_eq_sin_div_cos, Real.arctan_tan hgt hlt]
  rw [e5]
  ring

/-- Claim C8 (amended): the pin distance filter computes the haversine
great-circle distance on a radius-6371 km sphere with degree inputs
converted to radians and meter output, then converts meters to miles by
multiplying with 0.000621371 (the approximate reciprocal of 1609.344,
not the exact factor 1 mile = 1609.344 m) before comparing with the
maximum-distance setting; for a user at (0,0) and a pin at (0, 0.1)
degrees, a 10-mile maximum includes the pin and a 5-mile maximum
excludes it. -/
theorem claim_C8_distance_filter :
    getFilteredPins [pin01] [] (some loc00) 10 SortOption.noSort parseN = [pin01]
    ∧ getFilteredPins [pin01] [] (some loc00) 5 SortOption.noSort parseN = [] := by
  have hdist : distanceMeters loc00.latitude loc00.longitude pin01.latitude pin01.longitude
      = 6371000 * (Real.pi / 1800) := distanceMeters_equator_tenth
  have h10 : metersToMiles
      (distanceMeters loc00.latitude loc00.longitude pin01.latitude pin01.longitude) ≤ 10 := by
    rw [hdist]
    unfold metersToMiles
    nlinarith [Real.pi_lt_d2, Real.pi_pos]
  have h5 : ¬ metersToMiles
      (distanceMeters loc00.latitude loc00.longitude pin01.latitude pin01.longitude) ≤ 5 := by
    rw [hdist]
    unfold metersToMiles
    intro hc
    nlinarith [Real.pi_gt_d6]
  constructor
  · show List.filter (fun pin => decide (metersToMiles
        (distanceMeters loc00.latitude loc00.longitude pin.latitude pin.longitude) ≤ 10))
        [pin01] = [pin01]
    rw [List.filter_eq_self]
    intro a ha
    rw [List.mem_singleton] at ha
    subst ha
    exact decide_eq_true h10
  · show List.filter (fun pin => decide (metersToMiles
        (distanceMeters loc00.latitude loc00.longitude pin.latitude pin.longitude) ≤ 5))
        [pin01] = []
    rw [List.filter_eq_nil_iff]
    intro a ha
    rw [List.mem_singleton] at ha
    subst ha
    intro hc
    exact h5 (of_decide_eq_true hc)

/-- Counterexample to C8 as stated: the code's meters-to-miles
conversion multiplies by 0.000621371, so 1609.344 meters do not map to
exactly one mile — the claimed conversion factor 1 mile = 1609.344 m is
not the one used. -/
theorem claim_C8_counterexample :
    metersToMiles 1609.344 ≠ 1 ∧ metersToMiles 1609.344 = 0.999999690624 := by
  constructor <;> norm_num [metersToMiles]
